import Mathlib

/-!
Shallow embedding of the layout and rendering engine of `src/index.js`
(class `MemoryModel`).

Coordinates and dimensions are rationals (the JS code only ever computes
with integer configuration values, halves, quarters and eighths, so ℚ is
exact).  A draw call is modelled as the list of drawing nodes it appends
to the SVG surface, in `appendChild` order.  Sketch styling, colours of
rectangles and the rough.js rendering itself carry no geometry and are
not modelled; text nodes keep their content, anchor position, fill
colour and text-anchor, which is everything the claims talk about.

The class `MemoryModel` defines `drawAll` twice; in JavaScript the later
definition (line 740) shadows the earlier one, so `drawAll` below models
the later method, which reads the fields `show_indexes` and
`stack_frame` of each descriptor (not the `showIndexes` field documented
on the dead first definition).
-/

/-- Flat configuration store: the numeric and colour options of the
`config` constant that the drawing routines read. -/
structure Config where
  text_color : String
  value_color : String
  id_color : String
  item_min_width : ℚ
  item_min_height : ℚ
  obj_min_width : ℚ
  obj_min_height : ℚ
  prop_min_width : ℚ
  prop_min_height : ℚ
  obj_x_padding : ℚ
  double_rect_sep : ℚ
  list_index_sep : ℚ
  font_size : ℚ
deriving DecidableEq

/-- The `config` constant at the bottom of `index.js` (default options). -/
def defaultConfig : Config where
  text_color := "rgb(0, 0, 0)"
  value_color := "rgb(27, 14, 139)"
  id_color := "rgb(150, 100, 28)"
  item_min_width := 50
  item_min_height := 50
  obj_min_width := 200
  obj_min_height := 130
  prop_min_width := 60
  prop_min_height := 50
  obj_x_padding := 25
  double_rect_sep := 6
  list_index_sep := 20
  font_size := 20

/-- One drawing node appended to the SVG surface: a sketch rectangle
(`drawRect`) or a text label (`drawText`, with resolved colour and
text-anchor). -/
inductive Node where
  | rect (x y w h : ℚ)
  | text (content : String) (x y : ℚ) (color : String) (align : String)
deriving DecidableEq

/-- A JavaScript value as it can appear as the `value` of a primitive
entity. -/
inductive JsValue where
  | vInt (n : ℤ)
  | vStr (s : String)
  | vBool (b : Bool)
  | vNull
  | vUndefined
deriving DecidableEq

/-- `String(value)` for the values above. -/
def jsString : JsValue → String
  | .vInt n => toString n
  | .vStr s => s
  | .vBool b => if b then "true" else "false"
  | .vNull => "null"
  | .vUndefined => "undefined"

/-- `JSON.stringify(value)`; `none` for `undefined`, which JavaScript
maps to no string at all.  (Escaping of special characters inside string
values is elided; no claim exercises it.) -/
def jsonStringify : JsValue → Option String
  | .vInt n => some (toString n)
  | .vStr s => some ("\"" ++ s ++ "\"")
  | .vBool b => some (if b then "true" else "false")
  | .vNull => some "null"
  | .vUndefined => none

/-- JavaScript truthiness of a value. -/
def truthy : JsValue → Bool
  | .vInt n => !(n == 0)
  | .vStr s => !(s == "")
  | .vBool b => b
  | .vNull => false
  | .vUndefined => false

/-- The `immutable` constant of `index.js`. -/
def immutable : List String := ["int", "str", "tuple", "None", "bool", "float", "date"]

/-- The `collections` constant of `index.js`. -/
def collections : List String := ["list", "set", "tuple", "dict"]

/-- A container value: either an ordered vector of referenced ids
(list/tuple/set), a key-to-id mapping (dict, class attributes), or a
plain primitive value. -/
inductive EntityValue where
  | prim (v : JsValue)
  | seq (els : List (Option ℤ))
  | map (pairs : List (String × Option ℤ))
deriving DecidableEq

/-- One entity descriptor, as consumed by `drawAll`.  Fields that the
JavaScript object may simply lack are `Option`s (`none` = `undefined`).
Both spellings `show_indexes` and `showIndexes` are carried: the live
`drawAll` (line 740) reads only `show_indexes`. -/
structure Descriptor where
  isClass : Bool
  x : ℚ
  y : ℚ
  name : String
  id : Option ℤ
  value : EntityValue
  stack_frame : Option Bool := none
  show_indexes : Option Bool := none
  showIndexes : Option Bool := none

namespace MemoryModel

/-- `getTextLength(s)`: `s.length * 12`. -/
def getTextLength (s : String) : ℚ := (s.length : ℚ) * 12

/-- The label `id${v}` used for container elements, with the source's
null guard `v === null ? "" : ...` (same expression in `drawSequence`,
`drawSet`, `drawDict` values and `drawClass` attribute values). -/
def seqLabel : Option ℤ → String
  | none => ""
  | some v => "id" ++ toString v

/-- In `drawProperties`, the id box width is computed from the template
string `id${id}` with no null guard, so a null id contributes the text
"idnull". -/
def idBoxLabel : Option ℤ → String
  | none => "id" ++ "null"
  | some n => "id" ++ toString n

/-- The id label text actually drawn: `id === null ? "" : id${id}`. -/
def idTextLabel : Option ℤ → String
  | none => ""
  | some n => "id" ++ toString n

/-- The id box width in `drawProperties`. -/
def propIdBox (c : Config) (id : Option ℤ) : ℚ :=
  max c.prop_min_width (getTextLength (idBoxLabel id) + 10)

/-- The type box width in `drawProperties`. -/
def propTypeBox (c : Config) (type : String) : ℚ :=
  max c.prop_min_width (getTextLength type + 10)

/-- `drawProperties(id, type, x, y, width)`: id text, type text, id box,
type box, in `appendChild` order. -/
def drawProperties (c : Config) (id : Option ℤ) (type : String) (x y width : ℚ) : List Node :=
  [Node.text (idTextLabel id) (x + propIdBox c id / 2) (y + c.font_size * 1.5) c.id_color "middle",
   Node.text type (x + width - propTypeBox c type / 2) (y + c.font_size * 1.5) c.value_color "middle",
   Node.rect x y (propIdBox c id) c.prop_min_height,
   Node.rect (x + width - propTypeBox c type) y (propTypeBox c type) c.prop_min_height]

/-- The primitive value box width in `drawPrimitive`. -/
def primBoxWidth (c : Config) (v : JsValue) : ℚ :=
  max c.obj_min_width (getTextLength (jsString v) + c.obj_x_padding)

/-- The `display_text` of `drawPrimitive`: `value ? "True" : "False"`
for booleans, otherwise `JSON.stringify(value)`. -/
def primDisplayText (type : String) (v : JsValue) : String :=
  if type = "bool" then (if truthy v then "True" else "False")
  else (jsonStringify v).getD ""

/-- `drawPrimitive(x, y, type, id, value)`. -/
def drawPrimitive (c : Config) (x y : ℚ) (type : String) (id : Option ℤ) (v : JsValue) :
    List Node :=
  let box_width := primBoxWidth c v
  [Node.rect x y box_width c.obj_min_height]
  ++ (if type ∈ immutable then
        [Node.rect (x - c.double_rect_sep) (y - c.double_rect_sep)
          (box_width + 2 * c.double_rect_sep) (c.obj_min_height + 2 * c.double_rect_sep)]
      else [])
  ++ (if v = .vNull ∨ v = .vUndefined then []
      else [Node.text (primDisplayText type v) (x + box_width / 2)
              (y + (c.obj_min_height + c.prop_min_height) / 2) c.value_color "middle"])
  ++ drawProperties c id type x y box_width

/-- The per-element sub-box width used by `drawSequence` and `drawSet`. -/
def seqItemWidth (c : Config) (v : Option ℤ) : ℚ :=
  max c.item_min_width (getTextLength (seqLabel v) + 10)

/-- The `forEach` accumulation of the sequence box width, starting from
`obj_x_padding * 2`. -/
def seqBoxWidth (c : Config) (els : List (Option ℤ)) : ℚ :=
  max c.obj_min_width (els.foldl (fun w v => w + seqItemWidth c v) (c.obj_x_padding * 2))

/-- The element loop of `drawSequence`: for each element a sub-box
rectangle and an id text, plus an index label above when `show_idx`;
`curr_x` advances by the element's box width. -/
def seqItems (c : Config) (show_idx : Bool) (item_y : ℚ) :
    ℚ → ℕ → List (Option ℤ) → List Node
  | _, _, [] => []
  | curr_x, i, v :: rest =>
    let idv := seqLabel v
    let item_length := seqItemWidth c v
    [Node.rect curr_x item_y item_length c.item_min_height,
     Node.text idv (curr_x + item_length / 2)
       (item_y + c.item_min_height / 2 + c.font_size / 4) c.id_color "middle"]
    ++ (if show_idx then
          [Node.text (toString i) (curr_x + item_length / 2)
            (item_y - c.item_min_height / 4) c.text_color "middle"]
        else [])
    ++ seqItems c show_idx item_y (curr_x + item_length) (i + 1) rest

/-- `drawSequence(x, y, type, id, element_ids, show_idx)`. -/
def drawSequence (c : Config) (x y : ℚ) (type : String) (id : Option ℤ)
    (element_ids : List (Option ℤ)) (show_idx : Bool) : List Node :=
  let box_width := seqBoxWidth c element_ids
  let box_height := c.obj_min_height + (if show_idx then c.list_index_sep else 0)
  let item_y := y + c.prop_min_height +
    (c.obj_min_height - c.prop_min_height - c.item_min_height) / 2 +
    (if show_idx then c.list_index_sep else 0)
  [Node.rect x y box_width box_height]
  ++ (if type ∈ immutable then
        [Node.rect (x - c.double_rect_sep) (y - c.double_rect_sep)
          (box_width + 2 * c.double_rect_sep) (box_height + 2 * c.double_rect_sep)]
      else [])
  ++ seqItems c show_idx item_y (x + c.item_min_width / 2) 0 element_ids
  ++ drawProperties c id (if type = "list" then "list" else "tuple") x y box_width

/-- The set box width: the sequence accumulation, floored at
`obj_min_width`, plus `(n - 1) * item_min_width / 4` (for an empty set
the JavaScript `length - 1` is `-1`, so the quarter-width is
subtracted). -/
def setBoxWidth (c : Config) (els : List (Option ℤ)) : ℚ :=
  max c.obj_min_width (els.foldl (fun w v => w + seqItemWidth c v) (c.obj_x_padding * 2))
  + ((els.length : ℚ) - 1) * c.item_min_width / 4

/-- The element loop of `drawSet`: sub-box, id text, and a comma after
every element but the first; `curr_x` advances by the element width plus
`item_min_height / 4` (the source really uses the height here). -/
def setItems (c : Config) (item_y item_text_y : ℚ) :
    ℚ → ℕ → List (Option ℤ) → List Node
  | _, _, [] => []
  | curr_x, i, v :: rest =>
    let idv := seqLabel v
    let item_length := seqItemWidth c v
    [Node.rect curr_x item_y item_length c.item_min_height,
     Node.text idv (curr_x + item_length / 2) item_text_y c.id_color "middle"]
    ++ (if 0 < i then
          [Node.text "," (curr_x - c.item_min_width / 8) item_text_y c.text_color "middle"]
        else [])
    ++ setItems c item_y item_text_y (curr_x + item_length + c.item_min_height / 4) (i + 1) rest

/-- `drawSet(x, y, id, element_ids)`. -/
def drawSet (c : Config) (x y : ℚ) (id : Option ℤ) (element_ids : List (Option ℤ)) :
    List Node :=
  let box_width := setBoxWidth c element_ids
  let item_y := y + c.prop_min_height +
    (c.obj_min_height - c.prop_min_height - c.item_min_height) / 2
  let item_text_y := item_y + c.item_min_height / 2 + c.font_size / 4
  [Node.rect x y box_width c.obj_min_height]
  ++ setItems c item_y item_text_y (x + c.item_min_width / 2) 0 element_ids
  ++ drawProperties c id "set" x y box_width
  ++ [Node.text "\x7b" (x + c.item_min_width / 4) item_text_y c.text_color "middle",
      Node.text "\x7d" (x + box_width - c.item_min_width / 4) item_text_y c.text_color "middle"]

/-- The dict key label `id${k}` (for-in keys are strings, never null). -/
def dictKeyLabel (k : String) : String := "id" ++ k

/-- The dict key box width.  The source computes
`getTextLength(idk + 5)`, where `idk + 5` is JavaScript string
concatenation, i.e. the label followed by the character "5" (and no
`+ 10` outside the call). -/
def dictKeyBox (c : Config) (k : String) : ℚ :=
  max c.item_min_width (getTextLength (dictKeyLabel k ++ "5"))

/-- The dict value box width, with the same `+ 5` concatenation. -/
def dictValueBox (c : Config) (v : Option ℤ) : ℚ :=
  max c.item_min_width (getTextLength (seqLabel v ++ "5"))

/-- The dict box width accumulated by the first loop of `drawDict`. -/
def dictBoxWidth (c : Config) (pairs : List (String × Option ℤ)) : ℚ :=
  pairs.foldl
    (fun w p => max w (c.obj_x_padding * 2 + dictKeyBox c p.1 + dictValueBox c p.2 + 2 * c.font_size))
    c.obj_min_width

/-- The dict box height accumulated by the first loop of `drawDict`:
starts at `prop_min_height + item_min_height / 2` and grows by
`1.5 * item_min_height` per pair. -/
def dictBoxHeight (c : Config) (pairs : List (String × Option ℤ)) : ℚ :=
  pairs.foldl (fun h _ => h + 1.5 * c.item_min_height)
    (c.prop_min_height + c.item_min_height / 2)

/-- The first loop of `drawDict`: per pair a key rectangle and key text,
with `curr_y` advancing by `item_min_height * 1.5`. -/
def dictPass1 (c : Config) (x : ℚ) : ℚ → List (String × Option ℤ) → List Node
  | _, [] => []
  | curr_y, (k, _) :: rest =>
    [Node.rect (x + c.obj_x_padding) curr_y (dictKeyBox c k) c.item_min_height,
     Node.text (dictKeyLabel k) (x + c.item_min_width + 2)
       (curr_y + c.item_min_height / 2 + c.font_size / 4) c.id_color "middle"]
    ++ dictPass1 c x (curr_y + c.item_min_height * 1.5) rest

/-- The second loop of `drawDict`: per pair a colon text, a value
rectangle and a value text, with the same vertical pitch. -/
def dictPass2 (c : Config) (x box_width : ℚ) : ℚ → List (String × Option ℤ) → List Node
  | _, [] => []
  | curr_y, (_, v) :: rest =>
    let idv := seqLabel v
    let value_box := dictValueBox c v
    [Node.text ":" (x + box_width / 2)
       (curr_y + c.item_min_height / 2 + c.font_size / 4) c.value_color "middle",
     Node.rect (x + box_width / 2 + c.font_size) curr_y value_box c.item_min_height,
     Node.text idv (x + box_width / 2 + c.font_size + value_box / 2)
       (curr_y + c.item_min_height / 2 + c.font_size / 4) c.id_color "middle"]
    ++ dictPass2 c x box_width (curr_y + c.item_min_height * 1.5) rest

/-- `drawDict(x, y, id, obj)`: key pass, value pass, outer box, then the
id/type property boxes. -/
def drawDict (c : Config) (x y : ℚ) (id : Option ℤ) (pairs : List (String × Option ℤ)) :
    List Node :=
  let box_width := dictBoxWidth c pairs
  dictPass1 c x (y + c.prop_min_height + c.item_min_height / 2) pairs
  ++ dictPass2 c x box_width (y + c.prop_min_height + c.item_min_height / 2) pairs
  ++ [Node.rect x y box_width (dictBoxHeight c pairs)]
  ++ drawProperties c id "dict" x y box_width

/-- The `longest` attribute name width loop of `drawClass`. -/
def classLongest (attrs : List (String × Option ℤ)) : ℚ :=
  attrs.foldl (fun l a => max l (getTextLength a.1)) 0

/-- The outer box width of `drawClass`: `obj_min_width` is *replaced*
(not maxed) by `longest + item_min_width * 3` whenever `longest > 0`,
then maxed with the class-name term. -/
def classBoxWidth (c : Config) (name : String) (attrs : List (String × Option ℤ)) : ℚ :=
  max (if 0 < classLongest attrs then classLongest attrs + c.item_min_width * 3
       else c.obj_min_width)
    (c.prop_min_width + getTextLength name + 10)

/-- The outer box height of `drawClass`. -/
def classBoxHeight (c : Config) (attrs : List (String × Option ℤ)) : ℚ :=
  if 0 < attrs.length then
    c.item_min_width * 3 / 2 * (attrs.length : ℚ) + c.item_min_width / 2 + c.prop_min_height
  else c.obj_min_height

/-- The attribute loop of `drawClass`: value sub-box at the right edge,
left-aligned attribute name, centred value text. -/
def classAttrs (c : Config) (x box_width : ℚ) : ℚ → List (String × Option ℤ) → List Node
  | _, [] => []
  | curr_y, (attrName, val) :: rest =>
    let idv := seqLabel val
    let attr_box := max c.item_min_width (getTextLength idv + 10)
    [Node.rect (x + box_width - c.item_min_width * 1.5) curr_y attr_box c.item_min_height,
     Node.text attrName (x + c.item_min_width / 2)
       (curr_y + c.item_min_height / 2 + c.font_size / 4) c.text_color "begin",
     Node.text idv (x + box_width - c.item_min_width * 1.5 + attr_box / 2)
       (curr_y + c.item_min_height / 2 + c.font_size / 4) c.id_color "middle"]
    ++ classAttrs c x box_width (curr_y + c.item_min_height * 1.5) rest

/-- `drawClass(x, y, name, id, attributes, stack_frame)`. -/
def drawClass (c : Config) (x y : ℚ) (name : String) (id : Option ℤ)
    (attrs : List (String × Option ℤ)) (stack_frame : Bool) : List Node :=
  let box_width := classBoxWidth c name attrs
  [Node.rect x y box_width (classBoxHeight c attrs)]
  ++ classAttrs c x box_width (y + c.prop_min_height + c.item_min_height / 2) attrs
  ++ (if stack_frame then
        [Node.rect x y (getTextLength name + 10) c.prop_min_height,
         Node.text name (x + getTextLength name / 2 + 5)
           (y + c.prop_min_height * 0.6) c.text_color "middle"]
      else drawProperties c id name x y box_width)

/-- `drawObject(x, y, type, id, value, show_indexes)`: dispatch on the
type string.  `none` models the TypeError the JavaScript raises when the
value's shape does not match what the chosen branch iterates over. -/
def drawObject (c : Config) (x y : ℚ) (type : String) (id : Option ℤ)
    (value : EntityValue) (show_indexes : Bool) : Option (List Node) :=
  if type ∈ collections then
    if type = "dict" then
      match value with
      | .map pairs => some (drawDict c x y id pairs)
      | _ => none
    else if type = "set" then
      match value with
      | .seq els => some (drawSet c x y id els)
      | _ => none
    else
      match value with
      | .seq els => some (drawSequence c x y type id els show_indexes)
      | _ => none
  else
    match value with
    | .prim v => some (drawPrimitive c x y type id v)
    | _ => none

/-- The effective `drawAll(objects)` (the second definition, line 740,
which shadows the first): dispatches each descriptor in order, reading
`show_indexes` and `stack_frame` (undefined fields are falsy). -/
def drawAll (c : Config) (objects : List Descriptor) : Option (List Node) :=
  match objects with
  | [] => some []
  | item :: rest =>
    let first :=
      if item.isClass then
        match item.value with
        | .map attrs =>
          some (drawClass c item.x item.y item.name item.id attrs (item.stack_frame.getD false))
        | _ => none
      else
        drawObject c item.x item.y item.name item.id item.value (item.show_indexes.getD false)
    match first, drawAll c rest with
    | some ns, some ms => some (ns ++ ms)
    | _, _ => none

end MemoryModel

/-- The text contents of the text nodes of a node list, in order. -/
def textContents (ns : List Node) : List String :=
  ns.filterMap fun n =>
    match n with
    | .text s _ _ _ _ => some s
    | _ => none

/-- The rectangles of a node list as (x, y, width, height) tuples, in
order. -/
def rectsOf (ns : List Node) : List (ℚ × ℚ × ℚ × ℚ) :=
  ns.filterMap fun n =>
    match n with
    | .rect x y w h => some (x, y, w, h)
    | _ => none

/-- How many text nodes of a node list carry exactly the content `s`. -/
def countText (s : String) (ns : List Node) : ℕ :=
  (textContents ns).count s

@[simp] lemma textContents_nil : textContents [] = [] := rfl

@[simp] lemma textContents_cons_rect (x y w h : ℚ) (ns : List Node) :
    textContents (Node.rect x y w h :: ns) = textContents ns := rfl

@[simp] lemma textContents_cons_text (s : String) (x y : ℚ) (col al : String) (ns : List Node) :
    textContents (Node.text s x y col al :: ns) = s :: textContents ns := rfl

@[simp] lemma textContents_append (a b : List Node) :
    textContents (a ++ b) = textContents a ++ textContents b :=
  List.filterMap_append a b _

@[simp] lemma rectsOf_nil : rectsOf [] = [] := rfl

@[simp] lemma rectsOf_cons_rect (x y w h : ℚ) (ns : List Node) :
    rectsOf (Node.rect x y w h :: ns) = (x, y, w, h) :: rectsOf ns := rfl

@[simp] lemma rectsOf_cons_text (s : String) (x y : ℚ) (col al : String) (ns : List Node) :
    rectsOf (Node.text s x y col al :: ns) = rectsOf ns := rfl

@[simp] lemma rectsOf_append (a b : List Node) :
    rectsOf (a ++ b) = rectsOf a ++ rectsOf b :=
  List.filterMap_append a b _

/-- C8: `getTextLength` is 12 pixels per character, hence monotone in
string length and additive over concatenation. -/
theorem C8_measure_linear :
    (∀ s : String, MemoryModel.getTextLength s = 12 * (s.length : ℚ))
    ∧ (∀ s t : String, s.length ≤ t.length →
        MemoryModel.getTextLength s ≤ MemoryModel.getTextLength t)
    ∧ (∀ s t : String,
        MemoryModel.getTextLength (s ++ t)
          = MemoryModel.getTextLength s + MemoryModel.getTextLength t) := by
  refine ⟨fun s => by rw [MemoryModel.getTextLength, mul_comm], fun s t h => ?_, fun s t => ?_⟩
  · have hc : (s.length : ℚ) ≤ (t.length : ℚ) := by exact_mod_cast h
    exact mul_le_mul_of_nonneg_right hc (by norm_num)
  · rw [MemoryModel.getTextLength, MemoryModel.getTextLength, MemoryModel.getTextLength,
      String.length_append]
    push_cast
    ring

/-- Witness for C8 at concrete strings. -/
theorem C8_measure_linear_witness :
    MemoryModel.getTextLength "ab" ≤ MemoryModel.getTextLength "abc" :=
  C8_measure_linear.2.1 "ab" "abc" (by decide)

/-- C7: the primitive value box is `max(obj_min_width,
measure(String(value)) + obj_x_padding)` wide and `obj_min_height`
high; the width is monotone in the measured width of the stringified
value and never below `obj_min_width`. -/
theorem C7_primitive_box :
    (∀ (c : Config) (x y : ℚ) (t : String) (id : Option ℤ) (v : JsValue),
      (MemoryModel.drawPrimitive c x y t id v).head?
        = some (Node.rect x y
            (max c.obj_min_width (MemoryModel.getTextLength (jsString v) + c.obj_x_padding))
            c.obj_min_height))
    ∧ (∀ (c : Config) (v₁ v₂ : JsValue),
        MemoryModel.getTextLength (jsString v₁) ≤ MemoryModel.getTextLength (jsString v₂) →
          MemoryModel.primBoxWidth c v₁ ≤ MemoryModel.primBoxWidth c v₂)
    ∧ (∀ (c : Config) (v : JsValue), c.obj_min_width ≤ MemoryModel.primBoxWidth c v) := by
  refine ⟨fun c x y t id v => ?_, fun c v₁ v₂ h => ?_, fun c v => le_max_left _ _⟩
  · simp [MemoryModel.drawPrimitive, MemoryModel.primBoxWidth]
  · exact max_le_max le_rfl (add_le_add_right h _)

/-- Witness for C7 at concrete values. -/
theorem C7_primitive_box_witness :
    MemoryModel.primBoxWidth defaultConfig (.vInt 3)
      ≤ MemoryModel.primBoxWidth defaultConfig (.vStr "abcd") :=
  C7_primitive_box.2.1 defaultConfig (.vInt 3) (.vStr "abcd")
    (by norm_num [MemoryModel.getTextLength,
      show jsString (JsValue.vInt 3) = "3" from rfl,
      show jsString (JsValue.vStr "abcd") = "abcd" from rfl,
      show ("3").length = 1 from rfl, show ("abcd").length = 4 from rfl])

/-- C3: drawing the single bool descriptor through `drawAll` yields the
double box, the centred value text "True", the id text "id7", the type
text "bool" and the two property boxes. -/
theorem C3_drawAll_bool_example :
    MemoryModel.drawAll defaultConfig
      [{ isClass := false, x := 0, y := 0, name := "bool", id := some 7,
         value := .prim (.vBool true) }]
    = some [Node.rect 0 0 200 130,
            Node.rect (-6) (-6) 212 142,
            Node.text "True" 100 90 defaultConfig.value_color "middle",
            Node.text "id7" 30 30 defaultConfig.id_color "middle",
            Node.text "bool" 170 30 defaultConfig.value_color "middle",
            Node.rect 0 0 60 50,
            Node.rect 140 0 60 50] := by
  norm_num [MemoryModel.drawAll, MemoryModel.drawObject, MemoryModel.drawPrimitive,
    MemoryModel.drawProperties, MemoryModel.primBoxWidth,
    MemoryModel.propIdBox, MemoryModel.propTypeBox,
    MemoryModel.getTextLength, immutable, collections, defaultConfig,
    show jsString (JsValue.vBool true) = "true" from rfl,
    show MemoryModel.idBoxLabel (some 7) = "id7" from rfl,
    show MemoryModel.idTextLabel (some 7) = "id7" from rfl,
    show MemoryModel.primDisplayText "bool" (JsValue.vBool true) = "True" from rfl,
    show ("true").length = 4 from rfl, show ("id7").length = 3 from rfl,
    show ("bool").length = 4 from rfl]
  simp

/-- C4 counterexample: the effective `drawAll` reads `show_indexes`, not
`showIndexes`, so the descriptor of the claim (camel-case field) draws
no index labels at all and keeps the plain `obj_min_height` outer box. -/
theorem C4_counterexample :
    (MemoryModel.drawAll defaultConfig
        [{ isClass := false, x := 0, y := 0, name := "list", id := some 1,
           value := .seq [some 2, some 3], showIndexes := some true }]).map
        (fun ns => (countText "0" ns, countText "1" ns, textContents ns, ns.head?))
      = some (0, 0, ["id2", "id3", "id1", "list"], some (Node.rect 0 0 200 130))
    ∧ (130 : ℚ) ≠ defaultConfig.obj_min_height + defaultConfig.list_index_sep := by
  constructor
  · norm_num [MemoryModel.drawAll, MemoryModel.drawObject, MemoryModel.drawSequence,
      MemoryModel.seqItems, MemoryModel.seqBoxWidth, MemoryModel.seqItemWidth,
      MemoryModel.drawProperties, MemoryModel.propIdBox, MemoryModel.propTypeBox,
      MemoryModel.getTextLength, immutable, collections, defaultConfig,
      show MemoryModel.seqLabel (some 2) = "id2" from rfl,
      show MemoryModel.seqLabel (some 3) = "id3" from rfl,
      show MemoryModel.idBoxLabel (some 1) = "id1" from rfl,
      show MemoryModel.idTextLabel (some 1) = "id1" from rfl,
      show ("id2").length = 3 from rfl, show ("id3").length = 3 from rfl,
      show ("id1").length = 3 from rfl, show ("list").length = 4 from rfl]
    simp [countText, textContents]
  · norm_num [defaultConfig]

/-- C4 as amended: with the snake-case `show_indexes` flag the same
descriptor draws the two item boxes with id texts "id2"/"id3", index
labels "0" and "1" centred above each item box (label y 72.5 is above
the item top edge 85), and an outer box of height
`obj_min_height + list_index_sep`. -/
theorem C4_show_indexes_example :
    MemoryModel.drawAll defaultConfig
      [{ isClass := false, x := 0, y := 0, name := "list", id := some 1,
         value := .seq [some 2, some 3], show_indexes := some true }]
    = some [Node.rect 0 0 200 150,
            Node.rect 25 85 50 50,
            Node.text "id2" 50 115 defaultConfig.id_color "middle",
            Node.text "0" 50 (145 / 2) defaultConfig.text_color "middle",
            Node.rect 75 85 50 50,
            Node.text "id3" 100 115 defaultConfig.id_color "middle",
            Node.text "1" 100 (145 / 2) defaultConfig.text_color "middle",
            Node.text "id1" 30 30 defaultConfig.id_color "middle",
            Node.text "list" 170 30 defaultConfig.value_color "middle",
            Node.rect 0 0 60 50,
            Node.rect 140 0 60 50]
    ∧ defaultConfig.obj_min_height + defaultConfig.list_index_sep = 150
    ∧ (145 / 2 : ℚ) < 85 := by
  refine ⟨?_, by norm_num [defaultConfig], by norm_num⟩
  norm_num [MemoryModel.drawAll, MemoryModel.drawObject, MemoryModel.drawSequence,
    MemoryModel.seqItems, MemoryModel.seqBoxWidth, MemoryModel.seqItemWidth,
    MemoryModel.drawProperties, MemoryModel.propIdBox, MemoryModel.propTypeBox,
    MemoryModel.getTextLength, immutable, collections, defaultConfig,
    show MemoryModel.seqLabel (some 2) = "id2" from rfl,
    show MemoryModel.seqLabel (some 3) = "id3" from rfl,
    show MemoryModel.idBoxLabel (some 1) = "id1" from rfl,
    show MemoryModel.idTextLabel (some 1) = "id1" from rfl,
    show toString (0 : ℕ) = "0" from rfl, show toString (1 : ℕ) = "1" from rfl,
    show ("id2").length = 3 from rfl, show ("id3").length = 3 from rfl,
    show ("id1").length = 3 from rfl, show ("list").length = 4 from rfl]
  simp

/-- C1 counterexample: a dict with zero pairs gets an outer box of
height `prop_min_height + item_min_height / 2 = 75`, not
`obj_min_height = 130`. -/
theorem C1_counterexample :
    rectsOf (MemoryModel.drawDict defaultConfig 0 0 (some 1) [])
      = [(0, 0, 200, 75), (0, 0, 60, 50), (140, 0, 60, 50)]
    ∧ (75 : ℚ) ≠ defaultConfig.obj_min_height := by
  constructor
  · norm_num [MemoryModel.drawDict, MemoryModel.dictPass1, MemoryModel.dictPass2,
      MemoryModel.dictBoxWidth, MemoryModel.dictBoxHeight,
      MemoryModel.drawProperties, MemoryModel.propIdBox, MemoryModel.propTypeBox,
      MemoryModel.getTextLength, defaultConfig,
      show MemoryModel.idBoxLabel (some 1) = "id1" from rfl,
      show MemoryModel.idTextLabel (some 1) = "id1" from rfl,
      show ("id1").length = 3 from rfl, show ("dict").length = 4 from rfl]
  · norm_num [defaultConfig]

/-- C2 counterexample: with one single-character attribute the computed
width is `longest + 3 * item_min_width = 162`, strictly below the
`max(obj_min_width, ...) = 200` the claim demands. -/
theorem C2_counterexample :
    (MemoryModel.drawClass defaultConfig 0 0 "A" (some 7) [("a", some 2)] false).head?
      = some (Node.rect 0 0 162 150)
    ∧ (162 : ℚ) ≠ max defaultConfig.obj_min_width
        (max (MemoryModel.getTextLength "a" + 3 * defaultConfig.item_min_width)
             (MemoryModel.getTextLength "A" + defaultConfig.prop_min_width + 10)) := by
  constructor
  · norm_num [MemoryModel.drawClass, MemoryModel.classBoxWidth, MemoryModel.classBoxHeight,
      MemoryModel.classLongest, MemoryModel.getTextLength, defaultConfig,
      show ("a").length = 1 from rfl, show ("A").length = 1 from rfl]
  · norm_num [MemoryModel.getTextLength, defaultConfig,
      show ("a").length = 1 from rfl, show ("A").length = 1 from rfl]

/-- C10: a null id draws an empty id label, but the id box is still
sized from the text "idnull": width `max(prop_min_width,
measure("idnull") + 10) = 82` under the default configuration, not the
width the blank label would give. -/
theorem C10_null_id_box :
    ∀ (t : String) (x y w : ℚ),
      (MemoryModel.drawProperties defaultConfig none t x y w).get? 0
        = some (Node.text "" (x + 82 / 2) (y + 30) defaultConfig.id_color "middle")
      ∧ (MemoryModel.drawProperties defaultConfig none t x y w).get? 2
        = some (Node.rect x y 82 defaultConfig.prop_min_height)
      ∧ MemoryModel.propIdBox defaultConfig none
          = max defaultConfig.prop_min_width (MemoryModel.getTextLength "idnull" + 10)
      ∧ MemoryModel.propIdBox defaultConfig none = 82
      ∧ (82 : ℚ) ≠ max defaultConfig.prop_min_width (MemoryModel.getTextLength "" + 10) := by
  intro t x y w
  have h82 : MemoryModel.propIdBox defaultConfig none = 82 := by
    norm_num [MemoryModel.propIdBox, MemoryModel.getTextLength, defaultConfig,
      show MemoryModel.idBoxLabel none = "idnull" from rfl,
      show ("idnull").length = 6 from rfl]
  refine ⟨?_, ?_, ?_, h82, ?_⟩
  · simp only [MemoryModel.drawProperties, MemoryModel.idTextLabel, List.get?]
    rw [h82]
    norm_num [show defaultConfig.font_size = (20 : ℚ) from rfl]
  · simp only [MemoryModel.drawProperties, List.get?]
    rw [h82]
  · rw [h82]
    norm_num [MemoryModel.getTextLength, defaultConfig, show ("idnull").length = 6 from rfl]
  · norm_num [MemoryModel.getTextLength, defaultConfig, show ("").length = 0 from rfl]

lemma textContents_seqItems_false (c : Config) (iy : ℚ) :
    ∀ (els : List (Option ℤ)) (cx : ℚ) (i : ℕ),
      textContents (MemoryModel.seqItems c false iy cx i els)
        = els.map MemoryModel.seqLabel := by
  intro els
  induction els with
  | nil => intro cx i; rfl
  | cons v rest ih => intro cx i; simp [MemoryModel.seqItems, ih]

/-- C9: a null or undefined primitive value appends no value text node
(only the two property labels remain), while an empty-string value still
appends one; a null sequence element and a null id render as blank
(empty-string) labels. -/
theorem C9_null_values_blank :
    (∀ (c : Config) (x y : ℚ) (t : String) (id : Option ℤ),
      textContents (MemoryModel.drawPrimitive c x y t id .vNull)
        = [MemoryModel.idTextLabel id, t])
    ∧ (∀ (c : Config) (x y : ℚ) (t : String) (id : Option ℤ),
      textContents (MemoryModel.drawPrimitive c x y t id .vUndefined)
        = [MemoryModel.idTextLabel id, t])
    ∧ (∀ (c : Config) (x y : ℚ) (t : String) (id : Option ℤ),
      textContents (MemoryModel.drawPrimitive c x y t id (.vStr ""))
        = [MemoryModel.primDisplayText t (.vStr ""), MemoryModel.idTextLabel id, t])
    ∧ (∀ (c : Config) (x y : ℚ) (id : Option ℤ) (els : List (Option ℤ)),
      textContents (MemoryModel.drawSequence c x y "list" id els false)
        = els.map MemoryModel.seqLabel ++ [MemoryModel.idTextLabel id, "list"])
    ∧ MemoryModel.seqLabel none = "" ∧ MemoryModel.idTextLabel none = "" := by
  refine ⟨fun c x y t id => ?_, fun c x y t id => ?_, fun c x y t id => ?_,
    fun c x y id els => ?_, rfl, rfl⟩
  · simp [MemoryModel.drawPrimitive, MemoryModel.drawProperties, apply_ite textContents]
  · simp [MemoryModel.drawPrimitive, MemoryModel.drawProperties, apply_ite textContents]
  · simp [MemoryModel.drawPrimitive, MemoryModel.drawProperties, apply_ite textContents]
  · simp [MemoryModel.drawSequence, MemoryModel.drawProperties, immutable,
      textContents_seqItems_false, apply_ite textContents]

lemma seqLabel_ne_single (v : Option ℤ) (s : String) (hs : s.length = 1) :
    MemoryModel.seqLabel v ≠ s := by
  cases v with
  | none =>
    intro h
    rw [← h] at hs
    simp [MemoryModel.seqLabel] at hs
  | some n =>
    intro h
    have hlen := congrArg String.length h
    rw [hs, MemoryModel.seqLabel, String.length_append] at hlen
    have : ("id").length = 2 := rfl
    omega

lemma idTextLabel_ne_single (id : Option ℤ) (s : String) (hs : s.length = 1) :
    MemoryModel.idTextLabel id ≠ s := by
  cases id with
  | none =>
    intro h
    rw [← h] at hs
    simp [MemoryModel.idTextLabel] at hs
  | some n =>
    intro h
    have hlen := congrArg String.length h
    rw [hs, MemoryModel.idTextLabel, String.length_append] at hlen
    have : ("id").length = 2 := rfl
    omega


@[simp] lemma countText_nil (s : String) : countText s [] = 0 := rfl

@[simp] lemma countText_append (s : String) (a b : List Node) :
    countText s (a ++ b) = countText s a + countText s b := by
  simp [countText, List.count_append]

@[simp] lemma countText_cons_rect (s : String) (x y w h : ℚ) (ns : List Node) :
    countText s (Node.rect x y w h :: ns) = countText s ns := by
  simp [countText]

@[simp] lemma countText_cons_text (s t : String) (x y : ℚ) (col al : String) (ns : List Node) :
    countText s (Node.text t x y col al :: ns)
      = countText s ns + (if t = s then 1 else 0) := by
  simp [countText, List.count_cons]

lemma countText_comma_setItems (c : Config) (iy ity : ℚ) :
    ∀ (els : List (Option ℤ)) (cx : ℚ) (i : ℕ),
      countText "," (MemoryModel.setItems c iy ity cx i els)
        = if i = 0 then els.length - 1 else els.length := by
  intro els
  induction els with
  | nil =>
    intro cx i
    simp [MemoryModel.setItems]
  | cons v rest ih =>
    intro cx i
    have hv : MemoryModel.seqLabel v ≠ "," := seqLabel_ne_single v "," rfl
    rcases Nat.eq_zero_or_pos i with hi | hi
    · subst hi
      simp [MemoryModel.setItems, hv,
        ih (cx + MemoryModel.seqItemWidth c v + c.item_min_height / 4) 1]
    · have hi' : ¬ i = 0 := Nat.pos_iff_ne_zero.1 hi
      simp [MemoryModel.setItems, hv, hi, hi',
        ih (cx + MemoryModel.seqItemWidth c v + c.item_min_height / 4) (i + 1)]

lemma countText_setItems_other (c : Config) (iy ity : ℚ) (s : String)
    (hs : s.length = 1) (hsc : s ≠ ",") :
    ∀ (els : List (Option ℤ)) (cx : ℚ) (i : ℕ),
      countText s (MemoryModel.setItems c iy ity cx i els) = 0 := by
  intro els
  induction els with
  | nil =>
    intro cx i
    simp [MemoryModel.setItems]
  | cons v rest ih =>
    intro cx i
    have hv : MemoryModel.seqLabel v ≠ s := seqLabel_ne_single v s hs
    have hcs : ¬ ("," = s) := fun h => hsc h.symm
    simp [MemoryModel.setItems, hv, hcs, apply_ite (countText s),
      ih (cx + MemoryModel.seqItemWidth c v + c.item_min_height / 4) (i + 1)]

lemma foldl_add_eq_sum {α : Type} (f : α → ℚ) :
    ∀ (l : List α) (a : ℚ), l.foldl (fun w v => w + f v) a = a + (l.map f).sum := by
  intro l
  induction l with
  | nil => intro a; simp
  | cons x xs ih =>
    intro a
    simp only [List.foldl_cons, List.map_cons, List.sum_cons, ih (a + f x)]
    ring

lemma rect_mem_rectsOf {a b w h : ℚ} {ns : List Node} (hm : Node.rect a b w h ∈ ns) :
    (a, b, w, h) ∈ rectsOf ns :=
  List.mem_filterMap.2 ⟨Node.rect a b w h, hm, rfl⟩

lemma setItems_rect_height (c : Config) (iy ity : ℚ) :
    ∀ (els : List (Option ℤ)) (cx : ℚ) (i : ℕ) (r : ℚ × ℚ × ℚ × ℚ),
      r ∈ rectsOf (MemoryModel.setItems c iy ity cx i els) → r.2.2.2 = c.item_min_height := by
  intro els
  induction els with
  | nil =>
    intro cx i r hr
    simp [MemoryModel.setItems] at hr
  | cons v rest ih =>
    intro cx i r hr
    simp only [MemoryModel.setItems, rectsOf_append, rectsOf_cons_rect, rectsOf_cons_text,
      apply_ite rectsOf, rectsOf_nil, ite_self, List.nil_append, List.cons_append,
      List.mem_cons, List.mem_append] at hr
    rcases hr with h | h
    · rw [h]
    · exact ih _ _ r (by simpa using h)

/-- C6: a set with n elements draws exactly n-1 comma glyphs and one
opening and one closing brace glyph; the outer box is the sequence
width plus `(n - 1) * item_min_width / 4` wide, and no immutability
double-box is drawn (default configuration for the latter). -/
theorem C6_set_rendering :
    (∀ (c : Config) (x y : ℚ) (id : Option ℤ) (els : List (Option ℤ)),
      countText "," (MemoryModel.drawSet c x y id els) = els.length - 1
      ∧ countText "\x7b" (MemoryModel.drawSet c x y id els) = 1
      ∧ countText "\x7d" (MemoryModel.drawSet c x y id els) = 1
      ∧ (MemoryModel.drawSet c x y id els).head?
          = some (Node.rect x y (MemoryModel.setBoxWidth c els) c.obj_min_height)
      ∧ MemoryModel.setBoxWidth c els
          = max c.obj_min_width
              (2 * c.obj_x_padding + (els.map (MemoryModel.seqItemWidth c)).sum)
            + ((els.length : ℚ) - 1) * c.item_min_width / 4)
    ∧ (∀ (x y : ℚ) (id : Option ℤ) (els : List (Option ℤ)),
      Node.rect (x - defaultConfig.double_rect_sep) (y - defaultConfig.double_rect_sep)
          (MemoryModel.setBoxWidth defaultConfig els + 2 * defaultConfig.double_rect_sep)
          (defaultConfig.obj_min_height + 2 * defaultConfig.double_rect_sep)
        ∉ MemoryModel.drawSet defaultConfig x y id els) := by
  constructor
  · intro c x y id els
    have hid : ∀ s : String, s.length = 1 → MemoryModel.idTextLabel id ≠ s :=
      fun s hs => idTextLabel_ne_single id s hs
    refine ⟨?_, ?_, ?_, ?_, ?_⟩
    · simp [MemoryModel.drawSet, MemoryModel.drawProperties,
        countText_comma_setItems, hid "," rfl]
    · simp [MemoryModel.drawSet, MemoryModel.drawProperties,
        countText_setItems_other c _ _ "\x7b" rfl (by decide), hid "\x7b" rfl]
    · simp [MemoryModel.drawSet, MemoryModel.drawProperties,
        countText_setItems_other c _ _ "\x7d" rfl (by decide), hid "\x7d" rfl]
    · simp [MemoryModel.drawSet]
    · rw [MemoryModel.setBoxWidth, foldl_add_eq_sum, mul_comm c.obj_x_padding 2]
  · intro x y id els hmem
    simp only [MemoryModel.drawSet, List.mem_append, List.mem_cons, List.mem_singleton,
      List.not_mem_nil, or_false] at hmem
    rcases hmem with ((houter | hitems) | hprops) | hbraces
    · norm_num [defaultConfig] at houter
    · have hh := setItems_rect_height defaultConfig _ _ els _ 0 _ (rect_mem_rectsOf hitems)
      norm_num [defaultConfig] at hh
    · simp only [MemoryModel.drawProperties, List.mem_cons, List.mem_singleton,
        List.not_mem_nil, or_false] at hprops
      rcases hprops with h | h | h | h
      · exact Node.noConfusion h
      · exact Node.noConfusion h
      · norm_num [defaultConfig] at h
      · norm_num [defaultConfig] at h
    · rcases hbraces with h | h <;> simp at h

lemma seqItems_rect_height (c : Config) (si : Bool) (iy : ℚ) :
    ∀ (els : List (Option ℤ)) (cx : ℚ) (i : ℕ) (r : ℚ × ℚ × ℚ × ℚ),
      r ∈ rectsOf (MemoryModel.seqItems c si iy cx i els) → r.2.2.2 = c.item_min_height := by
  intro els
  induction els with
  | nil =>
    intro cx i r hr
    simp [MemoryModel.seqItems] at hr
  | cons v rest ih =>
    intro cx i r hr
    simp only [MemoryModel.seqItems, rectsOf_append, rectsOf_cons_rect, rectsOf_cons_text,
      apply_ite rectsOf, rectsOf_nil, ite_self, List.nil_append, List.cons_append,
      List.mem_cons, List.mem_append] at hr
    rcases hr with h | h
    · rw [h]
    · exact ih _ _ r (by simpa using h)

lemma dictPass1_rect_height (c : Config) (x : ℚ) :
    ∀ (ps : List (String × Option ℤ)) (cy : ℚ) (r : ℚ × ℚ × ℚ × ℚ),
      r ∈ rectsOf (MemoryModel.dictPass1 c x cy ps) → r.2.2.2 = c.item_min_height := by
  intro ps
  induction ps with
  | nil =>
    intro cy r hr
    simp [MemoryModel.dictPass1] at hr
  | cons p rest ih =>
    intro cy r hr
    obtain ⟨k, v⟩ := p
    simp only [MemoryModel.dictPass1, rectsOf_append, rectsOf_cons_rect, rectsOf_cons_text,
      List.cons_append, List.nil_append, List.mem_cons] at hr
    rcases hr with h | h
    · rw [h]
    · exact ih _ r (by simpa using h)

lemma dictPass2_rect_height (c : Config) (x bw : ℚ) :
    ∀ (ps : List (String × Option ℤ)) (cy : ℚ) (r : ℚ × ℚ × ℚ × ℚ),
      r ∈ rectsOf (MemoryModel.dictPass2 c x bw cy ps) → r.2.2.2 = c.item_min_height := by
  intro ps
  induction ps with
  | nil =>
    intro cy r hr
    simp [MemoryModel.dictPass2] at hr
  | cons p rest ih =>
    intro cy r hr
    obtain ⟨k, v⟩ := p
    simp only [MemoryModel.dictPass2, rectsOf_append, rectsOf_cons_rect, rectsOf_cons_text,
      List.cons_append, List.nil_append, List.mem_cons] at hr
    rcases hr with h | h
    · rw [h]
    · exact ih _ r (by simpa using h)

lemma foldl_const_add {α : Type} :
    ∀ (l : List α) (a d : ℚ), l.foldl (fun h _ => h + d) a = a + d * l.length := by
  intro l
  induction l with
  | nil => intro a d; simp
  | cons x xs ih =>
    intro a d
    simp only [List.foldl_cons, ih (a + d) d, List.length_cons]
    push_cast
    ring

lemma dictBoxHeight_eq (c : Config) (ps : List (String × Option ℤ)) :
    MemoryModel.dictBoxHeight c ps
      = c.prop_min_height + c.item_min_height / 2
        + 1.5 * c.item_min_height * ps.length := by
  rw [MemoryModel.dictBoxHeight, foldl_const_add]

/-- C5: every immutable primitive type gets a second enclosing
rectangle offset by `-double_rect_sep` and `2 * double_rect_sep` larger
in each dimension (likewise tuples in `drawSequence`), while the
mutable kinds list, set and dict never draw such a second rectangle
(default configuration for the mutable part). -/
theorem C5_double_box :
    (∀ (c : Config) (x y : ℚ) (t : String) (id : Option ℤ) (v : JsValue),
      t ∈ immutable →
        (MemoryModel.drawPrimitive c x y t id v).take 2
          = [Node.rect x y (MemoryModel.primBoxWidth c v) c.obj_min_height,
             Node.rect (x - c.double_rect_sep) (y - c.double_rect_sep)
               (MemoryModel.primBoxWidth c v + 2 * c.double_rect_sep)
               (c.obj_min_height + 2 * c.double_rect_sep)])
    ∧ (∀ (c : Config) (x y : ℚ) (id : Option ℤ) (els : List (Option ℤ)) (si : Bool),
        (MemoryModel.drawSequence c x y "tuple" id els si).take 2
          = [Node.rect x y (MemoryModel.seqBoxWidth c els)
               (c.obj_min_height + (if si then c.list_index_sep else 0)),
             Node.rect (x - c.double_rect_sep) (y - c.double_rect_sep)
               (MemoryModel.seqBoxWidth c els + 2 * c.double_rect_sep)
               (c.obj_min_height + (if si then c.list_index_sep else 0)
                 + 2 * c.double_rect_sep)])
    ∧ (∀ (x y : ℚ) (id : Option ℤ) (els : List (Option ℤ)) (si : Bool),
        Node.rect (x - defaultConfig.double_rect_sep) (y - defaultConfig.double_rect_sep)
            (MemoryModel.seqBoxWidth defaultConfig els + 2 * defaultConfig.double_rect_sep)
            (defaultConfig.obj_min_height + (if si then defaultConfig.list_index_sep else 0)
              + 2 * defaultConfig.double_rect_sep)
          ∉ MemoryModel.drawSequence defaultConfig x y "list" id els si)
    ∧ (∀ (x y : ℚ) (id : Option ℤ) (els : List (Option ℤ)),
        Node.rect (x - defaultConfig.double_rect_sep) (y - defaultConfig.double_rect_sep)
            (MemoryModel.setBoxWidth defaultConfig els + 2 * defaultConfig.double_rect_sep)
            (defaultConfig.obj_min_height + 2 * defaultConfig.double_rect_sep)
          ∉ MemoryModel.drawSet defaultConfig x y id els)
    ∧ (∀ (x y : ℚ) (id : Option ℤ) (ps : List (String × Option ℤ)),
        Node.rect (x - defaultConfig.double_rect_sep) (y - defaultConfig.double_rect_sep)
            (MemoryModel.dictBoxWidth defaultConfig ps + 2 * defaultConfig.double_rect_sep)
            (MemoryModel.dictBoxHeight defaultConfig ps + 2 * defaultConfig.double_rect_sep)
          ∉ MemoryModel.drawDict defaultConfig x y id ps) := by
  refine ⟨fun c x y t id v ht => ?_, fun c x y id els si => ?_,
    fun x y id els si hmem => ?_, fun x y id els hmem => ?_, fun x y id ps hmem => ?_⟩
  · simp [MemoryModel.drawPrimitive, ht, List.take]
  · simp [MemoryModel.drawSequence, List.take,
      show ("tuple" ∈ immutable) from by decide]
  · simp only [MemoryModel.drawSequence,
      show (("list" ∈ immutable) = False) from by simp [immutable], if_false,
      List.nil_append, List.mem_append, List.mem_cons, List.mem_singleton,
      List.not_mem_nil, or_false] at hmem
    rcases hmem with (houter | hitems) | hprops
    · cases si <;> norm_num [defaultConfig] at houter
    · have hh := seqItems_rect_height defaultConfig si _ els _ 0 _ (rect_mem_rectsOf hitems)
      cases si <;> norm_num [defaultConfig] at hh
    · simp only [MemoryModel.drawProperties, List.mem_cons, List.mem_singleton,
        List.not_mem_nil, or_false] at hprops
      rcases hprops with h | h | h | h
      · exact Node.noConfusion h
      · exact Node.noConfusion h
      · cases si <;> norm_num [defaultConfig] at h
      · cases si <;> norm_num [defaultConfig] at h
  · simp only [MemoryModel.drawSet, List.mem_append, List.mem_cons, List.mem_singleton,
      List.not_mem_nil, or_false] at hmem
    rcases hmem with ((houter | hitems) | hprops) | hbraces
    · norm_num [defaultConfig] at houter
    · have hh := setItems_rect_height defaultConfig _ _ els _ 0 _ (rect_mem_rectsOf hitems)
      norm_num [defaultConfig] at hh
    · simp only [MemoryModel.drawProperties, List.mem_cons, List.mem_singleton,
        List.not_mem_nil, or_false] at hprops
      rcases hprops with h | h | h | h
      · exact Node.noConfusion h
      · exact Node.noConfusion h
      · norm_num [defaultConfig] at h
      · norm_num [defaultConfig] at h
    · rcases hbraces with h | h <;> simp at h
  · have hk : (0:ℚ) ≤ (ps.length : ℚ) := Nat.cast_nonneg _
    simp only [MemoryModel.drawDict, List.mem_append, List.mem_cons, List.mem_singleton,
      List.not_mem_nil, or_false] at hmem
    rcases hmem with ((hp1 | hp2) | houter) | hprops
    · have hh := dictPass1_rect_height defaultConfig _ ps _ _ (rect_mem_rectsOf hp1)
      rw [dictBoxHeight_eq] at hh
      norm_num [defaultConfig] at hh
      linarith
    · have hh := dictPass2_rect_height defaultConfig _ _ ps _ _ (rect_mem_rectsOf hp2)
      rw [dictBoxHeight_eq] at hh
      norm_num [defaultConfig] at hh
      linarith
    · norm_num [defaultConfig] at houter
    · simp only [MemoryModel.drawProperties, List.mem_cons, List.mem_singleton,
        List.not_mem_nil, or_false] at hprops
      rcases hprops with h | h | h | h
      · exact Node.noConfusion h
      · exact Node.noConfusion h
      · rw [show MemoryModel.dictBoxHeight defaultConfig ps
            = 75 + 75 * (ps.length : ℚ) from by
              rw [dictBoxHeight_eq]; norm_num [defaultConfig]] at h
        norm_num [defaultConfig] at h
      · rw [show MemoryModel.dictBoxHeight defaultConfig ps
            = 75 + 75 * (ps.length : ℚ) from by
              rw [dictBoxHeight_eq]; norm_num [defaultConfig]] at h
        norm_num [defaultConfig] at h

/-- Witness for C5 at a concrete immutable type. -/
theorem C5_double_box_witness :
    (MemoryModel.drawPrimitive defaultConfig 0 0 "int" (some 1) (.vInt 3)).take 2
      = [Node.rect 0 0 (MemoryModel.primBoxWidth defaultConfig (.vInt 3))
           defaultConfig.obj_min_height,
         Node.rect (0 - defaultConfig.double_rect_sep) (0 - defaultConfig.double_rect_sep)
           (MemoryModel.primBoxWidth defaultConfig (.vInt 3)
             + 2 * defaultConfig.double_rect_sep)
           (defaultConfig.obj_min_height + 2 * defaultConfig.double_rect_sep)] :=
  C5_double_box.1 defaultConfig 0 0 "int" (some 1) (.vInt 3) (by decide)

lemma dictPass1_rects_get (c : Config) (x : ℚ) :
    ∀ (ps : List (String × Option ℤ)) (cy : ℚ) (j : ℕ),
      (rectsOf (MemoryModel.dictPass1 c x cy ps))[j]?
        = ps[j]?.map (fun p =>
            (x + c.obj_x_padding, cy + c.item_min_height * 1.5 * j,
             MemoryModel.dictKeyBox c p.1, c.item_min_height)) := by
  intro ps
  induction ps with
  | nil => intro cy j; simp [MemoryModel.dictPass1]
  | cons p rest ih =>
    intro cy j
    obtain ⟨k, v⟩ := p
    cases j with
    | zero => simp [MemoryModel.dictPass1]
    | succ j =>
      simp only [MemoryModel.dictPass1, List.cons_append, List.nil_append,
        rectsOf_cons_rect, rectsOf_cons_text, List.getElem?_cons_succ,
        ih (cy + c.item_min_height * 1.5) j]
      cases hrj : rest[j]? with
      | none => rfl
      | some q =>
        simp only [Option.map_some']
        push_cast
        ring_nf

lemma dictPass2_rects_get (c : Config) (x bw : ℚ) :
    ∀ (ps : List (String × Option ℤ)) (cy : ℚ) (j : ℕ),
      (rectsOf (MemoryModel.dictPass2 c x bw cy ps))[j]?
        = ps[j]?.map (fun p =>
            (x + bw / 2 + c.font_size, cy + c.item_min_height * 1.5 * j,
             MemoryModel.dictValueBox c p.2, c.item_min_height)) := by
  intro ps
  induction ps with
  | nil => intro cy j; simp [MemoryModel.dictPass2]
  | cons p rest ih =>
    intro cy j
    obtain ⟨k, v⟩ := p
    cases j with
    | zero => simp [MemoryModel.dictPass2]
    | succ j =>
      simp only [MemoryModel.dictPass2, List.cons_append, List.nil_append,
        rectsOf_cons_rect, rectsOf_cons_text, List.getElem?_cons_succ,
        ih (cy + c.item_min_height * 1.5) j]
      cases hrj : rest[j]? with
      | none => rfl
      | some q =>
        simp only [Option.map_some']
        push_cast
        ring_nf

lemma dictPass1_rects_length (c : Config) (x : ℚ) :
    ∀ (ps : List (String × Option ℤ)) (cy : ℚ),
      (rectsOf (MemoryModel.dictPass1 c x cy ps)).length = ps.length := by
  intro ps
  induction ps with
  | nil => intro cy; rfl
  | cons p rest ih =>
    intro cy
    obtain ⟨k, v⟩ := p
    simp [MemoryModel.dictPass1, ih (cy + c.item_min_height * 1.5)]

lemma dictPass2_rects_length (c : Config) (x bw : ℚ) :
    ∀ (ps : List (String × Option ℤ)) (cy : ℚ),
      (rectsOf (MemoryModel.dictPass2 c x bw cy ps)).length = ps.length := by
  intro ps
  induction ps with
  | nil => intro cy; rfl
  | cons p rest ih =>
    intro cy
    obtain ⟨k, v⟩ := p
    simp [MemoryModel.dictPass2, ih (cy + c.item_min_height * 1.5)]

/-- C1 (amended): `drawDict` draws exactly one key rectangle per pair
(first pass) and one value rectangle per pair (second pass), both
advancing by the constant pitch `1.5 * item_min_height` per pair, plus
the outer box and the two property boxes; the outer box of an empty
dict has width `obj_min_width` but height
`prop_min_height + item_min_height / 2`, not `obj_min_height`. -/
theorem C1_dict_layout :
    ∀ (c : Config) (x y : ℚ) (id : Option ℤ) (ps : List (String × Option ℤ)),
      (rectsOf (MemoryModel.drawDict c x y id ps)).length = 2 * ps.length + 3
      ∧ (∀ j : ℕ, j < ps.length →
          (rectsOf (MemoryModel.drawDict c x y id ps))[j]?
            = ps[j]?.map (fun p =>
                (x + c.obj_x_padding,
                 y + c.prop_min_height + c.item_min_height / 2
                   + c.item_min_height * 1.5 * j,
                 MemoryModel.dictKeyBox c p.1, c.item_min_height)))
      ∧ (∀ j : ℕ, j < ps.length →
          (rectsOf (MemoryModel.drawDict c x y id ps))[ps.length + j]?
            = ps[j]?.map (fun p =>
                (x + MemoryModel.dictBoxWidth c ps / 2 + c.font_size,
                 y + c.prop_min_height + c.item_min_height / 2
                   + c.item_min_height * 1.5 * j,
                 MemoryModel.dictValueBox c p.2, c.item_min_height)))
      ∧ (rectsOf (MemoryModel.drawDict c x y id ps))[2 * ps.length]?
          = some (x, y, MemoryModel.dictBoxWidth c ps,
              c.prop_min_height + c.item_min_height / 2
                + c.item_min_height * 1.5 * (ps.length : ℚ))
      ∧ rectsOf (MemoryModel.drawDict c x y id [])
          = [(x, y, c.obj_min_width, c.prop_min_height + c.item_min_height / 2),
             (x, y, MemoryModel.propIdBox c id, c.prop_min_height),
             (x + c.obj_min_width - MemoryModel.propTypeBox c "dict", y,
              MemoryModel.propTypeBox c "dict", c.prop_min_height)] := by
  intro c x y id ps
  have hsplit : rectsOf (MemoryModel.drawDict c x y id ps)
      = rectsOf (MemoryModel.dictPass1 c x
          (y + c.prop_min_height + c.item_min_height / 2) ps)
        ++ (rectsOf (MemoryModel.dictPass2 c x (MemoryModel.dictBoxWidth c ps)
              (y + c.prop_min_height + c.item_min_height / 2) ps)
          ++ ((x, y, MemoryModel.dictBoxWidth c ps, MemoryModel.dictBoxHeight c ps)
            :: rectsOf (MemoryModel.drawProperties c id "dict" x y
                (MemoryModel.dictBoxWidth c ps)))) := by
    simp [MemoryModel.drawDict]
  have len1 := dictPass1_rects_length c x ps
    (y + c.prop_min_height + c.item_min_height / 2)
  have len2 := dictPass2_rects_length c x (MemoryModel.dictBoxWidth c ps) ps
    (y + c.prop_min_height + c.item_min_height / 2)
  refine ⟨?_, fun j hj => ?_, fun j hj => ?_, ?_, ?_⟩
  · rw [hsplit]
    simp only [List.length_append, List.length_cons, len1, len2, MemoryModel.drawProperties,
      rectsOf_cons_text, rectsOf_cons_rect, rectsOf_nil, List.length_nil]
    omega
  · rw [hsplit, List.getElem?_append_left (by rw [len1]; exact hj),
      dictPass1_rects_get]
  · rw [hsplit, List.getElem?_append_right (by rw [len1]; omega)]
    rw [len1, Nat.add_sub_cancel_left,
      List.getElem?_append_left (by rw [len2]; exact hj),
      dictPass2_rects_get]
  · rw [hsplit, List.getElem?_append_right (by rw [len1]; omega)]
    rw [len1, show 2 * ps.length - ps.length = ps.length from by omega,
      List.getElem?_append_right (by rw [len2]),
      len2, Nat.sub_self, List.getElem?_cons_zero, dictBoxHeight_eq]
    ring_nf
  · simp [MemoryModel.drawDict, MemoryModel.dictPass1, MemoryModel.dictPass2,
      MemoryModel.dictBoxWidth, MemoryModel.dictBoxHeight, MemoryModel.drawProperties]

/-- Witness for C1 at a concrete one-pair dict. -/
theorem C1_dict_layout_witness :
    (rectsOf (MemoryModel.drawDict defaultConfig 0 0 (some 5) [("a", some 2)]))[0]?
      = [("a", (some 2 : Option ℤ))][0]?.map (fun p =>
          ((0:ℚ) + defaultConfig.obj_x_padding,
           (0:ℚ) + defaultConfig.prop_min_height + defaultConfig.item_min_height / 2
             + defaultConfig.item_min_height * 1.5 * ((0:ℕ) : ℚ),
           MemoryModel.dictKeyBox defaultConfig p.1, defaultConfig.item_min_height)) :=
  (C1_dict_layout defaultConfig 0 0 (some 5) [("a", some 2)]).2.1 0 (by decide)

lemma foldr_max_nonneg (l : List ℚ) : 0 ≤ l.foldr max 0 := by
  induction l with
  | nil => exact le_refl 0
  | cons x xs ih => exact le_trans ih (le_max_right x _)

lemma foldl_max_eq_foldr :
    ∀ (l : List ℚ) (a : ℚ), 0 ≤ a → l.foldl max a = max a (l.foldr max 0) := by
  intro l
  induction l with
  | nil =>
    intro a ha
    simp [max_eq_left ha]
  | cons x xs ih =>
    intro a ha
    rw [List.foldl_cons, List.foldr_cons, ih (max a x) (le_trans ha (le_max_left a x)),
      max_assoc]

lemma classLongest_eq_foldr (attrs : List (String × Option ℤ)) :
    MemoryModel.classLongest attrs
      = (attrs.map (fun a => MemoryModel.getTextLength a.1)).foldr max 0 := by
  have h0 : MemoryModel.classLongest attrs
      = (attrs.map (fun a => MemoryModel.getTextLength a.1)).foldl max 0 :=
    (List.foldl_map _ _ _ _).symm
  rw [h0, foldl_max_eq_foldr _ 0 le_rfl,
    max_eq_right (foldr_max_nonneg _)]

/-- C2 (amended): the outer box of `drawClass` is
`max(longest + 3 * item_min_width, measure(name) + prop_min_width + 10)`
wide when some attribute name has positive measured width — the
`obj_min_width` floor is replaced, not kept, in that case — and
`max(obj_min_width, measure(name) + prop_min_width + 10)` wide
otherwise; the height is `obj_min_height` without attributes, else
`1.5 * item_min_width * |A| + item_min_width / 2 + prop_min_height`. -/
theorem C2_class_box :
    ∀ (c : Config) (x y : ℚ) (name : String) (id : Option ℤ)
      (attrs : List (String × Option ℤ)) (sf : Bool),
      (MemoryModel.drawClass c x y name id attrs sf).head?
        = some (Node.rect x y
            (max (if 0 < (attrs.map (fun a => MemoryModel.getTextLength a.1)).foldr max 0
                  then (attrs.map (fun a => MemoryModel.getTextLength a.1)).foldr max 0
                    + 3 * c.item_min_width
                  else c.obj_min_width)
               (MemoryModel.getTextLength name + c.prop_min_width + 10))
            (if 0 < attrs.length
             then 1.5 * c.item_min_width * (attrs.length : ℚ)
               + c.item_min_width / 2 + c.prop_min_height
             else c.obj_min_height)) := by
  intro c x y name id attrs sf
  simp only [MemoryModel.drawClass, List.cons_append, List.head?_cons,
    MemoryModel.classBoxWidth, MemoryModel.classBoxHeight, classLongest_eq_foldr]
  ring_nf
